import Mathlib

/-!
# Verification of the TrafficOntology batch pipelines

Shallow embedding of the repository's three scripts:

* `src/run_match_osm_2023.py` — matches 2023 accident points to OSM road
  segments sharing the same street name;
* `src/run_match_osm_23_24.py` — the same matching for the years 2023 and
  2024, with a per-year driver loop;
* `src/data_raw/split_traffic_signs.py` — splits a traffic-sign GeoJSON
  file into one file per RVV category code, plus a metadata manifest.

Modelling conventions:

* pandas data frames become Lean lists of records; the columns the scripts
  actually touch become record fields;
* Python `dict` (insertion-ordered, later assignment to the same key
  overwrites the value in place) is modelled by `pyDictInsert` /
  `pyDictOfList` over association lists;
* geometric distance (shapely, under either CRS) is abstracted as an
  explicit distance function `d : AccidentPoint → RoadSegment → ℚ`
  passed to the matcher — the claims under study concern only the
  name-scoped selection structure, never the metric itself;
* `geopandas.sjoin_nearest(left, right, how="left")` is modelled per its
  documented semantics: every `right` row at minimal distance from a
  `left` row is returned, so several equidistant nearest neighbours all
  yield output rows;
* fallible steps return `Except String` / `Option`.
-/

namespace TrafficOntology

/-! ## Python `dict` model

`pyDictInsert` is a single Python dictionary assignment `d[k] = v`: if the
key is present its value is replaced in place (keeping the key's original
insertion position), otherwise the pair is appended.  `pyDictOfList`
builds a dict from a pair sequence, exactly like Python's `dict(pairs)`.
`pyDictGet` is key lookup.  The same model serves the hstore-parsing dict
and the filesystem (filename → last written content) of the splitter. -/

def pyDictInsert {α : Type} : List (String × α) → String × α → List (String × α)
  | [], kv => [kv]
  | (k, v) :: rest, kv =>
    if k = kv.1 then (k, kv.2) :: rest else (k, v) :: pyDictInsert rest kv

def pyDictOfList {α : Type} (l : List (String × α)) : List (String × α) :=
  l.foldl pyDictInsert []

def pyDictGet {α : Type} : List (String × α) → String → Option α
  | [], _ => none
  | (k, v) :: rest, key => if k = key then some v else pyDictGet rest key

/-- The value of the last pair of `l` carrying key `key`, if any. -/
def lastValue {α : Type} : List (String × α) → String → Option α
  | [], _ => none
  | (k, v) :: rest, key =>
    match lastValue rest key with
    | some w => some w
    | none => if k = key then some v else none

/-! ## `parse_hstore` (both matcher scripts, lines 25–47)

The Python code is `dict(re.findall(r'"(.*?)"=>"(.*?)"', hstore_string))`
guarded by a `None` check and a catch-all `except` returning `{}`.

The regex is embedded directly: a match is an opening `"`, a lazily
shortest key (any characters except newline, since `.` does not match
`'\n'`) up to the four-character delimiter `"=>"`, then a lazily shortest
value up to a closing `"`.  If no closing quote can be found for a given
delimiter occurrence the engine backtracks and extends the key to the
next delimiter occurrence; `scanKV` implements exactly that.  `findPairs`
is `re.findall`'s left-to-right scan: it resumes after the end of each
match, or one character further on failure.  The scan consumes at least
one character per step, so `l.length` steps of fuel always suffice and
`findPairsAux` never truncates. -/

def scanVal : List Char → Option (List Char × List Char)
  | [] => none
  | c :: rest =>
    if c = '"' then some ([], rest)
    else if c = '\n' then none
    else
      match scanVal rest with
      | some (v, r) => some (c :: v, r)
      | none => none

/-- Strips the four-character hstore delimiter `"=>"` from the front. -/
def stripArrow : List Char → Option (List Char)
  | '"' :: '=' :: '>' :: '"' :: r => some r
  | _ => none

def scanKV : List Char → Option ((List Char × List Char) × List Char)
  | [] => none
  | c :: rest =>
    let attempt : Option (List Char × List Char) :=
      match stripArrow (c :: rest) with
      | some r2 => scanVal r2
      | none => none
    match attempt with
    | some (v, r) => some (([], v), r)
    | none =>
      if c = '\n' then none
      else
        match scanKV rest with
        | some ((k, v), r) => some ((c :: k, v), r)
        | none => none

def findPairsAux : Nat → List Char → List (String × String)
  | 0, _ => []
  | _ + 1, [] => []
  | fuel + 1, c :: rest =>
    if c = '"' then
      match scanKV rest with
      | some ((k, v), r) => (String.mk k, String.mk v) :: findPairsAux fuel r
      | none => findPairsAux fuel rest
    else findPairsAux fuel rest

def findPairs (l : List Char) : List (String × String) :=
  findPairsAux l.length l

/-- Function `parse_hstore`, with Python's `None` as `Option.none`.  The Python
function is total (the `try`/`except` also absorbs non-string inputs such
as pandas `NaN`, which the `Option` input covers); the Lean embedding is
total by construction. -/
def parse_hstore : Option String → List (String × String)
  | none => []
  | some s => pyDictOfList (findPairs s.data)

/-! ## The accident/road matcher (both matcher scripts)

`AccidentPoint` is a BRON accident row after the scripts'
`dropna(subset=["longitude", "latitude", "straatnaam"])`: it always
carries a street name.  `ongeval_id` stands for the row's remaining
columns and identity.  `RoadSegment` is an OSM `lines` row; its `name`
column may be missing (pandas `NaN`), modelled as `Option String` — a
pandas equality test against a missing value is `False`, which is exactly
`s.name = some n` failing.  The polyline geometry of a segment and the
point coordinates are abstracted into the distance function `d` supplied
to each definition; the 2023 script computes `d` in geographic EPSG:4326
coordinates and the 2023/2024 script in projected EPSG:28992 coordinates,
but both use the identical name-scoped loop modelled here. -/

structure AccidentPoint where
  straatnaam : String
  ongeval_id : Nat
deriving DecidableEq, Repr

structure RoadSegment where
  name : Option String
  osm_id : Nat
deriving DecidableEq, Repr

/-- The segments of `segs` at minimal `d`-distance from `p`. -/
def nearestSegments (d : AccidentPoint → RoadSegment → ℚ) (p : AccidentPoint)
    (segs : List RoadSegment) : List RoadSegment :=
  segs.filter (fun s => segs.all (fun t => decide (d p s ≤ d p t)))

/-- Model of `gpd.sjoin_nearest(left, right, how="left")`: each left row paired
with every right row at minimal distance (GeoPandas documents that all
equidistant nearest neighbours are returned).  With a non-empty `right`
every left row yields at least one output row; with `right = []` the
scripts never call the join (they `continue` first). -/
def sjoin_nearest (d : AccidentPoint → RoadSegment → ℚ)
    (left : List AccidentPoint) (right : List RoadSegment) :
    List (AccidentPoint × RoadSegment) :=
  left.flatMap (fun p => (nearestSegments d p right).map (fun s => (p, s)))

/-- First-occurrence deduplication, i.e. `pandas.Series.unique()`. -/
def dedupFirst : List String → List String
  | [] => []
  | x :: xs => x :: (dedupFirst xs).filter (fun y => decide (y ≠ x))

/-- Model of `gdf_bron["straatnaam"].unique()`. -/
def uniqueStraatnamen (pts : List AccidentPoint) : List String :=
  dedupFirst (pts.map (fun p => p.straatnaam))

/-- One iteration of the per-street loop: select the accidents and the
segments whose name equals the street name exactly (case-sensitively);
`continue` (here `none`) when no segment carries the name, otherwise the
nearest join of the two subsets. -/
def streetTable (d : AccidentPoint → RoadSegment → ℚ) (pts : List AccidentPoint)
    (segs : List RoadSegment) (n : String) :
    Option (List (AccidentPoint × RoadSegment)) :=
  let accidents_on_street := pts.filter (fun p => decide (p.straatnaam = n))
  let roads_with_name := segs.filter (fun s => decide (s.name = some n))
  if roads_with_name.isEmpty then none
  else some (sjoin_nearest d accidents_on_street roads_with_name)

/-- The list `matched_data_list` after the whole loop. -/
def perStreetTables (d : AccidentPoint → RoadSegment → ℚ)
    (pts : List AccidentPoint) (segs : List RoadSegment) :
    List (List (AccidentPoint × RoadSegment)) :=
  (uniqueStraatnamen pts).filterMap (streetTable d pts segs)

/-- The matching core shared verbatim by both scripts: `none` models the
`RuntimeError` raised when `matched_data_list` is empty, `some rows` the
concatenated table.  The subsequent `dropna(subset=["index_right"])` is a
no-op (every modelled row carries a matched segment, since the join is
only ever called with a non-empty right table) and the
`rename(columns={"name": "osm_road_name"})` is a column relabelling that
leaves the row contents untouched, so neither appears as a separate
step. -/
def matchResult (d : AccidentPoint → RoadSegment → ℚ)
    (pts : List AccidentPoint) (segs : List RoadSegment) :
    Option (List (AccidentPoint × RoadSegment)) :=
  if (perStreetTables d pts segs).isEmpty then none
  else some (perStreetTables d pts segs).flatten

/-- Function `match_accidents_to_roads` of `run_match_osm_23_24.py`, whose
`RuntimeError` message carries the year. -/
def match_accidents_to_roads (d : AccidentPoint → RoadSegment → ℚ)
    (pts : List AccidentPoint) (segs : List RoadSegment) (year : Nat) :
    Except String (List (AccidentPoint × RoadSegment)) :=
  match matchResult d pts segs with
  | none =>
    .error ("No matches were found between accidents and roads for " ++ toString year ++ ".")
  | some rows => .ok rows

/-- Steps 3–4 of `main` in `run_match_osm_2023.py` (same loop inline,
year-less error message). -/
def run_matching_2023 (d : AccidentPoint → RoadSegment → ℚ)
    (pts : List AccidentPoint) (segs : List RoadSegment) :
    Except String (List (AccidentPoint × RoadSegment)) :=
  match matchResult d pts segs with
  | none => .error "No matches were found between accidents and roads."
  | some rows => .ok rows

/-! ## Input loading and the per-year driver loop -/

/-- Hard-coded input path of `run_match_osm_2023.py` (a Python raw
string, so single backslashes). -/
def bron_csv_file_2023 : String :=
  "C:\\Users\\nicol\\Documents\\TrafficOntology_Project\\TrafficOntology\\data_processed\\BRON_cleaned\\ongevallen_2023_clean.csv"

/-- Step 1 of `run_match_osm_2023.py`: `pd.read_csv` re-raised as a
`FileNotFoundError` naming the expected path.  `read_csv` abstracts the
filesystem: `none` is a missing file. -/
def load_bron_2023 (read_csv : String → Option (List AccidentPoint)) :
    Except String (List AccidentPoint) :=
  match read_csv bron_csv_file_2023 with
  | none => .error ("BRON accidents file not found: " ++ bron_csv_file_2023)
  | some df => .ok df

/-- Hard-coded per-year input paths of `run_match_osm_23_24.py`.  These
are Python *raw* strings containing doubled backslashes, so each `\\` of
the source is two literal backslash characters. -/
def accidents_path_2023 : String :=
  "C:\\\\Users\\\\nicol\\\\Documents\\\\TrafficOntology_Project\\\\TrafficOntology\\\\data_processed\\\\BRON_cleaned\\\\ongevallen_2023_clean.csv"

def accidents_path_2024 : String :=
  "C:\\\\Users\\\\nicol\\\\Documents\\\\TrafficOntology_Project\\\\TrafficOntology\\\\data_processed\\\\BRON_cleaned\\\\ongevallen_2024_clean.csv"

def accidents_files_23_24 : List (Nat × String) :=
  [(2023, accidents_path_2023), (2024, accidents_path_2024)]

/-- The per-year loop of `main` in `run_match_osm_23_24.py`: a missing
accidents file prints a warning and `continue`s to the next year; an
uncaught `RuntimeError` from `match_accidents_to_roads` aborts the whole
run.  The result collects each processed year's matched table (the
script writes each to its output CSV). -/
def processYears (read_csv : String → Option (List AccidentPoint))
    (d : AccidentPoint → RoadSegment → ℚ) (segs : List RoadSegment) :
    List (Nat × String) → Except String (List (Nat × List (AccidentPoint × RoadSegment)))
  | [] => .ok []
  | (year, path) :: rest =>
    match read_csv path with
    | none => processYears read_csv d segs rest
    | some df =>
      match match_accidents_to_roads d df segs year with
      | .error e => .error e
      | .ok rows =>
        match processYears read_csv d segs rest with
        | .error e => .error e
        | .ok l => .ok ((year, rows) :: l)

/-- Function `main` of `run_match_osm_23_24.py`, after the shared OSM load. -/
def main_23_24 (read_csv : String → Option (List AccidentPoint))
    (d : AccidentPoint → RoadSegment → ℚ) (segs : List RoadSegment) :
    Except String (List (Nat × List (AccidentPoint × RoadSegment))) :=
  processYears read_csv d segs accidents_files_23_24

/-! ## The traffic-sign splitter (`src/data_raw/split_traffic_signs.py`)

A GeoJSON feature is reduced to the property the script reads
(`feature.get('properties', {}).get('rvvCode', 'unknown')`, so a missing
`rvvCode` — or a missing `properties` object — is `Option.none`) plus an
identity `fid` standing for the rest of the feature. -/

structure Feature where
  rvvCode : Option String
  fid : Nat
deriving DecidableEq, Repr

/-- Category code of a feature, with the script's `'unknown'` default. -/
def featureCode (f : Feature) : String := f.rvvCode.getD "unknown"

/-- Expected splitter input path (`load_traffic_signs`); `fileExists`
abstracts `Path.exists`. -/
def trafficsigns_path : String := "data_raw/trafficsigns_wgs84.geojson"

def load_traffic_signs (fileExists : String → Bool) : Except String String :=
  if fileExists trafficsigns_path then .ok trafficsigns_path
  else
    .error ("File not found: " ++ trafficsigns_path ++
      "\nPlease ensure trafficsigns_wgs84.geojson is in the data_raw/ directory ☝️🤓")

/-- One step of the grouping loop: append `f` to the group of `code`,
creating the group at the end when absent (Python dict insertion
order). -/
def insertGroup : List (String × List Feature) → String → Feature →
    List (String × List Feature)
  | [], code, f => [(code, [f])]
  | (c, fs) :: rest, code, f =>
    if c = code then (c, fs ++ [f]) :: rest
    else (c, fs) :: insertGroup rest code f

/-- The `signs_by_type` dictionary after the grouping loop. -/
def groupByCode (features : List Feature) : List (String × List Feature) :=
  features.foldl (fun acc f => insertGroup acc (featureCode f) f) []

/-- Lexicographic comparison of strings by Unicode code point, which is
how Python's `sorted` orders `str` keys. -/
def charListLe : List Char → List Char → Bool
  | [], _ => true
  | _ :: _, [] => false
  | a :: as, b :: bs => if a < b then true else if b < a then false else charListLe as bs

def strLe (a b : String) : Bool := charListLe a.data b.data

def insertSorted (x : String × List Feature) :
    List (String × List Feature) → List (String × List Feature)
  | [] => [x]
  | y :: ys => if strLe x.1 y.1 then x :: y :: ys else y :: insertSorted x ys

/-- Model of `sorted(signs_by_type.items())` (keys are distinct, so any
order-correct sort agrees with Python's). -/
def sortGroups (l : List (String × List Feature)) : List (String × List Feature) :=
  l.foldr insertSorted []

/-- Model of `code.replace(a, b)` for a single-character pattern. -/
def replaceChar (a b : Char) (s : List Char) : List Char :=
  s.map (fun c => if c = a then b else c)

/-- Model of `rvv_code.replace('/', '_').replace(' ', '_')`. -/
def safe_code (code : String) : String :=
  String.mk (replaceChar ' ' '_' (replaceChar '/' '_' code.data))

def outputFileName (code : String) : String :=
  "traffic_signs_" ++ safe_code code ++ ".geojson"

/-- Function `split_geojson_by_sign_type`: the sequence of file writes the loop
performs, in sorted-code order — each write is (filename, features of
that code).  This list is also the function's returned `output_files`
(with contents attached for the statements below); note the script
appends to `output_files` once per code, even when two codes yield the
same filename. -/
def split_geojson_by_sign_type (features : List Feature) :
    List (String × List Feature) :=
  (sortGroups (groupByCode features)).map (fun g => (outputFileName g.1, g.2))

/-- The output directory after all writes: opening a file for writing
replaces any previous content under the same name, which is exactly the
Python-dict overwrite semantics of `pyDictOfList`. -/
def diskAfterWrites (writes : List (String × List Feature)) :
    List (String × List Feature) :=
  pyDictOfList writes

/-! ## The metadata manifest (`create_metadata_file`) -/

structure ChunkMeta where
  filename : String
  path : String
  size_mb : ℚ
deriving DecidableEq, Repr

structure SplitMetadata where
  total_chunks : Nat
  chunks : List ChunkMeta
deriving DecidableEq, Repr

/-- Python `round(size_bytes / (1024 * 1024), 2)` expressed in hundredths of a
megabyte: round-half-to-even (Python's `round`) of
`size_bytes * 100 / 2^20`, computed exactly on naturals. -/
def size_mb_hundredths (bytes : Nat) : Nat :=
  let n := bytes * 100
  let q := n / 1048576
  let r := n % 1048576
  if 2 * r < 1048576 then q
  else if 1048576 < 2 * r then q + 1
  else if q % 2 = 0 then q else q + 1

/-- The recorded `size_mb` value: megabytes with two decimal places,
i.e. the rounded hundredths over 100.  (The script computes this in
floating point; the exact model covers the recorded unit and precision,
not float representation error.) -/
def size_mb_of (bytes : Nat) : ℚ :=
  (size_mb_hundredths bytes : ℚ) / 100

/-- Function `create_metadata_file`: one manifest entry per file of the
`split_files` argument (the list returned by the splitter), recording
`f.name`, `str(f)` (the output directory joined with the name) and the
rounded size in megabytes of the file on disk; `fsize` abstracts
`f.stat().st_size`. -/
def create_metadata_file (split_files : List String) (fsize : String → Nat)
    (output_dir : String) : SplitMetadata :=
  { total_chunks := split_files.length
  , chunks := split_files.map (fun nm =>
      { filename := nm
      , path := output_dir ++ "/" ++ nm
      , size_mb := size_mb_of (fsize nm) }) }

/-! ## Lemmas about the Python `dict` model -/

theorem pyDictGet_pyDictInsert {α : Type} (dct : List (String × α)) (k : String)
    (v : α) (key : String) :
    pyDictGet (pyDictInsert dct (k, v)) key
      = if k = key then some v else pyDictGet dct key := by
  induction dct with
  | nil => simp [pyDictInsert, pyDictGet]
  | cons hd tl ih =>
    obtain ⟨k0, v0⟩ := hd
    by_cases h1 : k0 = k
    · subst h1
      by_cases h2 : k0 = key <;> simp [pyDictInsert, pyDictGet, h2]
    · by_cases h2 : k0 = key
      · subst h2
        have hk : ¬ k = k0 := fun h => h1 h.symm
        simp [pyDictInsert, pyDictGet, h1, hk]
      · simp [pyDictInsert, pyDictGet, h1, h2, ih]

theorem pyDictGet_foldl {α : Type} (l : List (String × α)) (key : String) :
    ∀ acc : List (String × α),
      pyDictGet (l.foldl pyDictInsert acc) key
        = match lastValue l key with
          | some w => some w
          | none => pyDictGet acc key := by
  induction l with
  | nil => intro acc; simp [lastValue]
  | cons hd tl ih =>
    intro acc
    obtain ⟨k, v⟩ := hd
    have step : (((k, v) :: tl).foldl pyDictInsert acc)
        = tl.foldl pyDictInsert (pyDictInsert acc (k, v)) := rfl
    rw [step, ih]
    cases hlv : lastValue tl key with
    | some w => simp [lastValue, hlv]
    | none =>
      by_cases hk : k = key <;>
        simp [lastValue, hlv, hk, pyDictGet_pyDictInsert]

theorem parse_hstore_get_lastValue (s : String) (k : String) :
    pyDictGet (parse_hstore (some s)) k = lastValue (findPairs s.data) k := by
  show pyDictGet (pyDictOfList (findPairs s.data)) k = _
  unfold pyDictOfList
  rw [pyDictGet_foldl]
  cases lastValue (findPairs s.data) k <;> simp [pyDictGet]

/-! ## Claims C5 and C10: the tag-blob decoder -/

/-- Claim C5: `parse_hstore` never raises: the Lean embedding is a total
function (the Python `try`/`except` and `None` guard absorb every
failure), and on the claim's distinguished inputs it returns the empty
mapping for `None`, for the empty string and for a string with
unbalanced quotes, and the two-pair mapping for the well-formed example
string. -/
theorem c5_parse_hstore_robust :
    parse_hstore none = [] ∧
    parse_hstore (some "") = [] ∧
    parse_hstore (some "\"maxspeed\"=>\"50") = [] ∧
    parse_hstore (some "\"maxspeed\"=>\"50\",\"surface\"=>\"asphalt\"")
      = [("maxspeed", "50"), ("surface", "asphalt")] := by
  refine ⟨rfl, by decide, by decide, by decide⟩

/-- Claim C10: the result of `parse_hstore` is determined solely by the
sequence of `"key"=>"value"` substrings the regular expression extracts
(`findPairs`); pair separators are immaterial, as the third conjunct
shows on pairs separated by ` x ` instead of a comma; and when a key
occurs in several extracted pairs, the final mapping binds it to the
value of the last such pair, both in general (`lastValue`) and on a
concrete duplicate-key input. -/
theorem c10_findall_then_dict :
    (∀ s t : String, findPairs s.data = findPairs t.data →
        parse_hstore (some s) = parse_hstore (some t)) ∧
    (∀ s k : String,
        pyDictGet (parse_hstore (some s)) k = lastValue (findPairs s.data) k) ∧
    parse_hstore (some "\"a\"=>\"1\" x \"b\"=>\"2\"") = [("a", "1"), ("b", "2")] ∧
    parse_hstore (some "\"k\"=>\"1\",\"k\"=>\"2\"") = [("k", "2")] := by
  refine ⟨?_, parse_hstore_get_lastValue, by decide, by decide⟩
  intro s t h
  show pyDictOfList (findPairs s.data) = pyDictOfList (findPairs t.data)
  rw [h]

theorem c10_witness :
    parse_hstore (some "\"x\"=>\"9\"") = parse_hstore (some "\"x\"=>\"9\"") ∧
    pyDictGet (parse_hstore (some "\"k\"=>\"1\",\"k\"=>\"2\"")) "k"
      = lastValue (findPairs ("\"k\"=>\"1\",\"k\"=>\"2\"" : String).data) "k" :=
  ⟨c10_findall_then_dict.1 "\"x\"=>\"9\"" "\"x\"=>\"9\"" rfl,
   c10_findall_then_dict.2.1 "\"k\"=>\"1\",\"k\"=>\"2\"" "k"⟩

/-! ## Claim C8: filename sanitization -/

/-- Claim C8: `safe_code` produces a string containing neither the path
separator `'/'` (the character the script substitutes) nor a space, and
it is idempotent: sanitizing an already-sanitized code is a no-op. -/
theorem c8_safe_code_sanitizes (code : String) :
    (∀ c ∈ (safe_code code).data, c ≠ '/' ∧ c ≠ ' ') ∧
    safe_code (safe_code code) = safe_code code := by
  constructor
  · intro c hc
    simp only [safe_code, replaceChar, List.map_map] at hc
    rcases List.mem_map.mp hc with ⟨x, -, rfl⟩
    by_cases h1 : x = '/' <;> by_cases h2 : x = ' ' <;>
      simp [Function.comp, h1, h2]
  · have key : ∀ l : List Char,
        replaceChar ' ' '_' (replaceChar '/' '_' (replaceChar ' ' '_' (replaceChar '/' '_' l)))
          = replaceChar ' ' '_' (replaceChar '/' '_' l) := by
      intro l
      simp only [replaceChar, List.map_map]
      apply List.map_congr_left
      intro x _
      by_cases h1 : x = '/' <;> by_cases h2 : x = ' ' <;>
        simp [Function.comp, h1, h2]
    show String.mk (replaceChar ' ' '_' (replaceChar '/' '_'
        (String.mk (replaceChar ' ' '_' (replaceChar '/' '_' code.data))).data))
      = String.mk (replaceChar ' ' '_' (replaceChar '/' '_' code.data))
    exact congrArg String.mk (key code.data)

theorem c8_witness :
    safe_code (safe_code "a/b c") = safe_code "a/b c" :=
  (c8_safe_code_sanitizes "a/b c").2

/-! ## Claim C9: the metadata manifest -/

/-- Claim C9: the manifest produced by `create_metadata_file` for the
splitter's returned file list records exactly those files, one chunk
entry per produced file in order, each carrying the file's name, its
path (output directory joined with the name) and its size in megabytes
rounded to two decimal places, and `total_chunks` equals the number of
output files and the number of chunk entries. -/
theorem c9_metadata_lists_outputs (features : List Feature)
    (fsize : String → Nat) (output_dir : String) :
    (create_metadata_file ((split_geojson_by_sign_type features).map Prod.fst)
        fsize output_dir).total_chunks
      = (split_geojson_by_sign_type features).length ∧
    (create_metadata_file ((split_geojson_by_sign_type features).map Prod.fst)
        fsize output_dir).chunks.map (fun ch => ch.filename)
      = (split_geojson_by_sign_type features).map Prod.fst ∧
    (create_metadata_file ((split_geojson_by_sign_type features).map Prod.fst)
        fsize output_dir).total_chunks
      = (create_metadata_file ((split_geojson_by_sign_type features).map Prod.fst)
          fsize output_dir).chunks.length ∧
    ∀ ch ∈ (create_metadata_file ((split_geojson_by_sign_type features).map Prod.fst)
        fsize output_dir).chunks,
      ch.path = output_dir ++ "/" ++ ch.filename ∧
      ch.size_mb = size_mb_of (fsize ch.filename) := by
  refine ⟨by simp [create_metadata_file], by simp [create_metadata_file, List.map_map],
    by simp [create_metadata_file], ?_⟩
  intro ch hch
  simp only [create_metadata_file, List.mem_map] at hch
  rcases hch with ⟨nm, -, rfl⟩
  exact ⟨rfl, rfl⟩

theorem c9_witness :
    (create_metadata_file
        ((split_geojson_by_sign_type [⟨some "A1", 0⟩]).map Prod.fst)
        (fun _ => 1048576) "data_processed/traffic_signs_by_type").total_chunks
      = (split_geojson_by_sign_type [(⟨some "A1", 0⟩ : Feature)]).length :=
  (c9_metadata_lists_outputs [⟨some "A1", 0⟩] (fun _ => 1048576)
    "data_processed/traffic_signs_by_type").1

/-! ## Lemmas about the splitter's grouping, sorting and writing -/

theorem insertGroup_keys (acc : List (String × List Feature)) (code : String)
    (f : Feature) :
    (insertGroup acc code f).map Prod.fst
      = if code ∈ acc.map Prod.fst then acc.map Prod.fst
        else acc.map Prod.fst ++ [code] := by
  induction acc with
  | nil => simp [insertGroup]
  | cons hd tl ih =>
    obtain ⟨c, fs⟩ := hd
    by_cases hc : c = code
    · subst hc; simp [insertGroup]
    · have hne : ¬ code = c := fun h => hc h.symm
      by_cases hmem : code ∈ tl.map Prod.fst <;>
        simp [insertGroup, hc, hne, hmem, ih]

theorem insertGroup_keys_nodup {acc : List (String × List Feature)}
    (h : (acc.map Prod.fst).Nodup) (code : String) (f : Feature) :
    ((insertGroup acc code f).map Prod.fst).Nodup := by
  rw [insertGroup_keys]
  by_cases hmem : code ∈ acc.map Prod.fst
  · simpa [hmem] using h
  · simp only [hmem, if_false]
    rw [List.nodup_append]
    exact ⟨h, List.nodup_singleton code, by
      intro x hx hx1
      rcases List.mem_singleton.mp hx1 with rfl
      exact hmem hx⟩

theorem groupByCode_keys_nodup (features : List Feature) :
    ((groupByCode features).map Prod.fst).Nodup := by
  suffices hgen : ∀ (l : List Feature) (acc : List (String × List Feature)),
      (acc.map Prod.fst).Nodup →
      (((l.foldl (fun acc f => insertGroup acc (featureCode f) f) acc)).map Prod.fst).Nodup by
    exact hgen features [] (by simp)
  intro l
  induction l with
  | nil => intro acc h; simpa using h
  | cons f t ih =>
    intro acc h
    exact ih _ (insertGroup_keys_nodup h (featureCode f) f)

theorem insertGroup_codes {acc : List (String × List Feature)} {code : String}
    {f : Feature} (hacc : ∀ g ∈ acc, ∀ x ∈ g.2, featureCode x = g.1)
    (hf : featureCode f = code) :
    ∀ g ∈ insertGroup acc code f, ∀ x ∈ g.2, featureCode x = g.1 := by
  induction acc with
  | nil =>
    intro g hg x hx
    simp only [insertGroup, List.mem_singleton] at hg
    subst hg
    rcases List.mem_singleton.mp hx with rfl
    exact hf
  | cons hd tl ih =>
    obtain ⟨c, fs⟩ := hd
    by_cases hc : c = code
    · subst hc
      intro g hg x hx
      simp only [insertGroup, if_pos rfl] at hg
      rcases List.mem_cons.mp hg with rfl | hg2
      · rcases List.mem_append.mp hx with hx1 | hx2
        · exact hacc (c, fs) (List.mem_cons_self _ _) x hx1
        · rcases List.mem_singleton.mp hx2 with rfl
          exact hf
      · exact hacc g (List.mem_cons_of_mem _ hg2) x hx
    · intro g hg x hx
      simp only [insertGroup, if_neg hc] at hg
      rcases List.mem_cons.mp hg with rfl | hg2
      · exact hacc (c, fs) (List.mem_cons_self _ _) x hx
      · exact ih (fun g' hg' => hacc g' (List.mem_cons_of_mem _ hg')) g hg2 x hx

theorem groupByCode_codes (features : List Feature) :
    ∀ g ∈ groupByCode features, ∀ x ∈ g.2, featureCode x = g.1 := by
  suffices hgen : ∀ (l : List Feature) (acc : List (String × List Feature)),
      (∀ g ∈ acc, ∀ x ∈ g.2, featureCode x = g.1) →
      ∀ g ∈ l.foldl (fun acc f => insertGroup acc (featureCode f) f) acc,
        ∀ x ∈ g.2, featureCode x = g.1 by
    exact hgen features [] (by simp)
  intro l
  induction l with
  | nil => intro acc h; simpa using h
  | cons f t ih =>
    intro acc h
    exact ih _ (insertGroup_codes h rfl)

theorem insertGroup_flatten (acc : List (String × List Feature)) (code : String)
    (f : Feature) :
    (((insertGroup acc code f).map Prod.snd).flatten).Perm
      ((acc.map Prod.snd).flatten ++ [f]) := by
  induction acc with
  | nil => simp [insertGroup]
  | cons hd tl ih =>
    obtain ⟨c, fs⟩ := hd
    by_cases hc : c = code
    · subst hc
      have heq : insertGroup ((c, fs) :: tl) c f = (c, fs ++ [f]) :: tl := by
        simp [insertGroup]
      rw [heq]
      simp only [List.map_cons, List.flatten_cons, List.append_assoc]
      exact List.Perm.append_left fs List.perm_append_comm
    · simp only [insertGroup, if_neg hc, List.map_cons, List.flatten_cons,
        List.append_assoc]
      have ih2 := List.Perm.append_left fs ih
      simpa [List.append_assoc] using ih2

theorem groupByCode_flatten (features : List Feature) :
    (((groupByCode features).map Prod.snd).flatten).Perm features := by
  suffices hgen : ∀ (l : List Feature) (acc : List (String × List Feature)),
      ((((l.foldl (fun acc f => insertGroup acc (featureCode f) f) acc)).map
          Prod.snd).flatten).Perm ((acc.map Prod.snd).flatten ++ l) by
    simpa using hgen features []
  intro l
  induction l with
  | nil => intro acc; simp
  | cons f t ih =>
    intro acc
    have h1 := ih (insertGroup acc (featureCode f) f)
    have h2 := List.Perm.append_right t (insertGroup_flatten acc (featureCode f) f)
    have h3 : ((acc.map Prod.snd).flatten ++ [f]) ++ t
        = (acc.map Prod.snd).flatten ++ (f :: t) := by simp
    rw [h3] at h2
    exact h1.trans h2

theorem insertSorted_perm (x : String × List Feature)
    (l : List (String × List Feature)) : (insertSorted x l).Perm (x :: l) := by
  induction l with
  | nil => simp [insertSorted]
  | cons y ys ih =>
    by_cases h : strLe x.1 y.1 = true
    · simp [insertSorted, h]
    · simp only [insertSorted, h, if_false, Bool.false_eq_true]
      exact (List.Perm.cons y ih).trans (List.Perm.swap x y ys)

theorem sortGroups_perm (l : List (String × List Feature)) :
    (sortGroups l).Perm l := by
  induction l with
  | nil => simp [sortGroups]
  | cons x t ih =>
    exact (insertSorted_perm x (sortGroups t)).trans (List.Perm.cons x ih)

theorem pyDictInsert_fresh {α : Type} {acc : List (String × α)} {k : String}
    (h : k ∉ acc.map Prod.fst) (v : α) :
    pyDictInsert acc (k, v) = acc ++ [(k, v)] := by
  induction acc with
  | nil => rfl
  | cons hd tl ih =>
    obtain ⟨k0, v0⟩ := hd
    have h1 : ¬ k0 = k := by
      intro he; exact h (by simp [he])
    have h2 : k ∉ tl.map Prod.fst := fun hm => h (by simp [hm])
    simp [pyDictInsert, h1, ih h2]

theorem pyDictOfList_nodup {α : Type} (l : List (String × α))
    (h : (l.map Prod.fst).Nodup) : pyDictOfList l = l := by
  suffices hgen : ∀ (l : List (String × α)) (acc : List (String × α)),
      ((acc ++ l).map Prod.fst).Nodup → l.foldl pyDictInsert acc = acc ++ l by
    simpa using hgen l [] (by simpa using h)
  intro l
  induction l with
  | nil => intro acc _; simp
  | cons hd tl ih =>
    intro acc hnd
    obtain ⟨k, v⟩ := hd
    have hk : k ∉ acc.map Prod.fst := by
      simp only [List.map_append, List.nodup_append] at hnd
      intro hm
      exact hnd.2.2 hm (by simp)
    have step : ((k, v) :: tl).foldl pyDictInsert acc
        = tl.foldl pyDictInsert (pyDictInsert acc (k, v)) := rfl
    rw [step, pyDictInsert_fresh hk v, ih (acc ++ [(k, v)]) (by simpa using hnd)]
    simp

/-! ## Claim C7: the splitter partitions its input -/

/-- Claim C7, amended: whenever sanitization is injective on the category
codes that actually occur (no two distinct codes share an output
filename), the files on disk after all writes form an exact partition of
the input: their features are a permutation of the input features (no
loss, no duplication) and every feature sits in exactly the file named
after its own category code (`'unknown'` for a missing code).  The
injectivity hypothesis cannot be dropped: `c7_counterexample` shows that
when two distinct codes sanitize to the same filename the later-sorted
code's write overwrites the earlier one's file and its features are
lost. -/
theorem c7_partition (features : List Feature)
    (hinj : ∀ g1 ∈ groupByCode features, ∀ g2 ∈ groupByCode features,
        outputFileName g1.1 = outputFileName g2.1 → g1.1 = g2.1) :
    (((diskAfterWrites (split_geojson_by_sign_type features)).map Prod.snd).flatten).Perm
        features ∧
    ∀ fl ∈ diskAfterWrites (split_geojson_by_sign_type features), ∀ f ∈ fl.2,
      fl.1 = outputFileName (featureCode f) := by
  have hsort := sortGroups_perm (groupByCode features)
  have hkeysG := groupByCode_keys_nodup features
  have hkeysS : ((sortGroups (groupByCode features)).map Prod.fst).Nodup :=
    ((hsort.map Prod.fst).nodup_iff).mpr hkeysG
  have hwkeys : ((split_geojson_by_sign_type features).map Prod.fst).Nodup := by
    have hmap : (split_geojson_by_sign_type features).map Prod.fst
        = ((sortGroups (groupByCode features)).map Prod.fst).map outputFileName := by
      simp [split_geojson_by_sign_type, List.map_map, Function.comp]
    rw [hmap]
    refine List.Nodup.map_on ?_ hkeysS
    intro x hx y hy hxy
    rcases List.mem_map.mp hx with ⟨g1, hg1, rfl⟩
    rcases List.mem_map.mp hy with ⟨g2, hg2, rfl⟩
    exact hinj g1 (hsort.mem_iff.mp hg1) g2 (hsort.mem_iff.mp hg2) hxy
  have hid : diskAfterWrites (split_geojson_by_sign_type features)
      = split_geojson_by_sign_type features := pyDictOfList_nodup _ hwkeys
  constructor
  · rw [hid]
    have hsnd : (split_geojson_by_sign_type features).map Prod.snd
        = (sortGroups (groupByCode features)).map Prod.snd := by
      simp [split_geojson_by_sign_type, List.map_map, Function.comp]
    rw [hsnd]
    exact (List.Perm.flatten (hsort.map Prod.snd)).trans (groupByCode_flatten features)
  · rw [hid]
    intro fl hfl f hf
    rcases List.mem_map.mp hfl with ⟨g, hg, rfl⟩
    have hgG := hsort.mem_iff.mp hg
    have hcode := groupByCode_codes features g hgG f hf
    simp [hcode]

/-- Counterexample to claim C7: two features whose distinct category codes
`"a b"` and `"a/b"` sanitize to the same filename: the second write
overwrites the first file, so the disk holds only the `"a/b"` feature
and the output files are not a partition of the input — the claim's
"even when two distinct category codes sanitize to the same filename"
clause fails on the code. -/
theorem c7_counterexample :
    diskAfterWrites (split_geojson_by_sign_type [⟨some "a b", 0⟩, ⟨some "a/b", 1⟩])
      = [("traffic_signs_a_b.geojson", [⟨some "a/b", 1⟩])] ∧
    ¬ (((diskAfterWrites (split_geojson_by_sign_type
          [⟨some "a b", 0⟩, ⟨some "a/b", 1⟩])).map Prod.snd).flatten).Perm
        [⟨some "a b", 0⟩, ⟨some "a/b", 1⟩] := by
  exact ⟨by decide, by decide⟩

theorem c7_witness :
    (((diskAfterWrites (split_geojson_by_sign_type [⟨some "A1", 7⟩])).map
        Prod.snd).flatten).Perm [(⟨some "A1", 7⟩ : Feature)] :=
  (c7_partition [⟨some "A1", 7⟩] (by decide)).1

/-! ## Lemmas about the matcher -/

theorem mem_dedupFirst {x : String} : ∀ {l : List String}, x ∈ dedupFirst l ↔ x ∈ l := by
  intro l
  induction l with
  | nil => simp [dedupFirst]
  | cons y t ih =>
    simp only [dedupFirst, List.mem_cons, List.mem_filter, decide_eq_true_eq]
    constructor
    · rintro (rfl | ⟨hx, -⟩)
      · exact Or.inl rfl
      · exact Or.inr (ih.mp hx)
    · rintro (rfl | hx)
      · exact Or.inl rfl
      · by_cases hxy : x = y
        · exact Or.inl hxy
        · exact Or.inr ⟨ih.mpr hx, hxy⟩

theorem nodup_dedupFirst : ∀ l : List String, (dedupFirst l).Nodup := by
  intro l
  induction l with
  | nil => simp [dedupFirst]
  | cons y t ih =>
    simp only [dedupFirst, List.nodup_cons]
    refine ⟨?_, List.Nodup.filter _ ih⟩
    intro hy
    rcases List.mem_filter.mp hy with ⟨-, habs⟩
    simp at habs

theorem mem_nearestSegments {d : AccidentPoint → RoadSegment → ℚ}
    {p : AccidentPoint} {segs : List RoadSegment} {s : RoadSegment} :
    s ∈ nearestSegments d p segs ↔ s ∈ segs ∧ ∀ t ∈ segs, d p s ≤ d p t := by
  simp [nearestSegments, List.mem_filter, List.all_eq_true]

theorem exists_min_segment (d : AccidentPoint → RoadSegment → ℚ)
    (p : AccidentPoint) :
    ∀ (segs : List RoadSegment), segs ≠ [] →
      ∃ s ∈ segs, ∀ t ∈ segs, d p s ≤ d p t := by
  intro segs
  induction segs with
  | nil => intro h; exact absurd rfl h
  | cons x rest ih =>
    intro _
    cases rest with
    | nil =>
      refine ⟨x, List.mem_singleton.mpr rfl, ?_⟩
      intro t ht
      rcases List.mem_singleton.mp ht with rfl
      exact le_refl _
    | cons y t =>
      rcases ih (by simp) with ⟨s, hs, hmin⟩
      rcases le_total (d p x) (d p s) with hle | hle
      · refine ⟨x, List.mem_cons_self _ _, ?_⟩
        intro u hu
        rcases List.mem_cons.mp hu with rfl | hu2
        · exact le_refl _
        · exact le_trans hle (hmin u hu2)
      · refine ⟨s, List.mem_cons_of_mem _ hs, ?_⟩
        intro u hu
        rcases List.mem_cons.mp hu with rfl | hu2
        · exact hle
        · exact hmin u hu2

theorem nearestSegments_ne_nil (d : AccidentPoint → RoadSegment → ℚ)
    (p : AccidentPoint) {segs : List RoadSegment} (h : segs ≠ []) :
    nearestSegments d p segs ≠ [] := by
  rcases exists_min_segment d p segs h with ⟨s, hs, hmin⟩
  exact List.ne_nil_of_mem (mem_nearestSegments.mpr ⟨hs, hmin⟩)

theorem one_le_length_nearestSegments (d : AccidentPoint → RoadSegment → ℚ)
    (p : AccidentPoint) {segs : List RoadSegment} (h : segs ≠ []) :
    1 ≤ (nearestSegments d p segs).length :=
  List.length_pos.mpr (nearestSegments_ne_nil d p h)

theorem mem_sjoin_nearest {d : AccidentPoint → RoadSegment → ℚ}
    {aps : List AccidentPoint} {rws : List RoadSegment}
    {r : AccidentPoint × RoadSegment} :
    r ∈ sjoin_nearest d aps rws ↔
      r.1 ∈ aps ∧ r.2 ∈ nearestSegments d r.1 rws := by
  simp only [sjoin_nearest, List.mem_flatMap, List.mem_map]
  constructor
  · rintro ⟨p, hp, s, hs, rfl⟩
    exact ⟨hp, hs⟩
  · rintro ⟨h1, h2⟩
    exact ⟨r.1, h1, r.2, h2, rfl⟩

theorem sjoin_nearest_length (d : AccidentPoint → RoadSegment → ℚ)
    (aps : List AccidentPoint) (rws : List RoadSegment) :
    (sjoin_nearest d aps rws).length
      = (aps.map (fun p => (nearestSegments d p rws).length)).sum := by
  rw [sjoin_nearest, List.length_flatMap]
  congr 1
  apply List.map_congr_left
  intro p _
  simp [Function.comp, List.length_map]

theorem sjoin_filter_point (d : AccidentPoint → RoadSegment → ℚ)
    (aps : List AccidentPoint) (rws : List RoadSegment) (p : AccidentPoint) :
    ((sjoin_nearest d aps rws).filter (fun r => decide (r.1 = p))).length
      = (aps.countP (fun q => decide (q = p)))
          * (nearestSegments d p rws).length := by
  induction aps with
  | nil => simp [sjoin_nearest]
  | cons q t ih =>
    have hsplit : sjoin_nearest d (q :: t) rws
        = ((nearestSegments d q rws).map (fun s => (q, s))) ++ sjoin_nearest d t rws := by
      simp [sjoin_nearest, List.flatMap_cons]
    rw [hsplit, List.filter_append, List.length_append, ih, List.countP_cons]
    by_cases hq : q = p
    · subst hq
      have hmap : ((nearestSegments d q rws).map (fun s => (q, s))).filter
          (fun r => decide (r.1 = q))
          = (nearestSegments d q rws).map (fun s => (q, s)) := by
        rw [List.filter_eq_self]
        intro a ha
        rcases List.mem_map.mp ha with ⟨s, -, rfl⟩
        simp
      rw [hmap, List.length_map]
      have hone : (if (decide (q = q)) = true then 1 else 0) = 1 := by simp
      rw [hone, Nat.add_mul, Nat.one_mul, Nat.add_comm]
    · have hmap : ((nearestSegments d q rws).map (fun s => (q, s))).filter
          (fun r => decide (r.1 = p)) = [] := by
        rw [List.filter_eq_nil_iff]
        intro a ha
        rcases List.mem_map.mp ha with ⟨s, -, rfl⟩
        simp [hq]
      rw [hmap]
      simp [hq]

theorem streetTable_none_iff {d : AccidentPoint → RoadSegment → ℚ}
    {pts : List AccidentPoint} {segs : List RoadSegment} {n : String} :
    streetTable d pts segs n = none ↔
      segs.filter (fun s => decide (s.name = some n)) = [] := by
  simp only [streetTable]
  by_cases hc : (segs.filter (fun s => decide (s.name = some n))).isEmpty
  · rw [if_pos hc]
    simp [List.isEmpty_iff.mp hc]
  · rw [if_neg hc]
    constructor
    · intro habs; cases habs
    · intro habs
      exact absurd (by simp [habs] : (segs.filter
        (fun s => decide (s.name = some n))).isEmpty = true) hc

theorem streetTable_some {d : AccidentPoint → RoadSegment → ℚ}
    {pts : List AccidentPoint} {segs : List RoadSegment} {n : String}
    {tab : List (AccidentPoint × RoadSegment)}
    (h : streetTable d pts segs n = some tab) :
    segs.filter (fun s => decide (s.name = some n)) ≠ [] ∧
    tab = sjoin_nearest d (pts.filter (fun p => decide (p.straatnaam = n)))
        (segs.filter (fun s => decide (s.name = some n))) := by
  simp only [streetTable] at h
  by_cases hc : (segs.filter (fun s => decide (s.name = some n))).isEmpty
  · rw [if_pos hc] at h; cases h
  · rw [if_neg hc] at h
    refine ⟨fun habs => hc (by simp [habs]), (Option.some.inj h).symm⟩

theorem tables_filter_point (d : AccidentPoint → RoadSegment → ℚ)
    (pts : List AccidentPoint) (segs : List RoadSegment) (p : AccidentPoint) :
    ∀ names : List String, names.Nodup →
      (((names.filterMap (streetTable d pts segs)).flatten).filter
          (fun r => decide (r.1 = p))).length
        = if p.straatnaam ∈ names then
            (pts.countP (fun q => decide (q = p)))
              * (nearestSegments d p (segs.filter
                  (fun s => decide (s.name = some p.straatnaam)))).length
          else 0 := by
  intro names
  induction names with
  | nil => intro _; simp
  | cons n t ih =>
    intro hnd
    rcases List.nodup_cons.mp hnd with ⟨hn, hndt⟩
    cases hst : streetTable d pts segs n with
    | none =>
      have hstep : ((n :: t).filterMap (streetTable d pts segs))
          = t.filterMap (streetTable d pts segs) := by
        rw [List.filterMap_cons, hst]
      rw [hstep, ih hndt]
      by_cases hmem : p.straatnaam = n
      · have hrws := streetTable_none_iff.mp hst
        have hnt : p.straatnaam ∉ t := hmem ▸ hn
        rw [if_neg hnt]
        have hK : (nearestSegments d p (segs.filter
            (fun s => decide (s.name = some p.straatnaam)))).length = 0 := by
          rw [hmem, hrws]
          simp [nearestSegments]
        rw [if_pos (by simp [hmem]), hK, Nat.mul_zero]
      · have hiff : (p.straatnaam ∈ n :: t) ↔ (p.straatnaam ∈ t) := by
          simp [List.mem_cons, hmem]
        rw [if_congr hiff rfl rfl]
    | some tab =>
      have hstep : ((n :: t).filterMap (streetTable d pts segs))
          = tab :: t.filterMap (streetTable d pts segs) := by
        rw [List.filterMap_cons, hst]
      rw [hstep, List.flatten_cons, List.filter_append, List.length_append, ih hndt]
      rcases streetTable_some hst with ⟨hne, htab⟩
      by_cases hmem : p.straatnaam = n
      · have hnt : p.straatnaam ∉ t := hmem ▸ hn
        rw [if_neg hnt, Nat.add_zero, if_pos (by simp [hmem])]
        subst htab
        rw [sjoin_filter_point]
        have hcnt : ((pts.filter (fun q => decide (q.straatnaam = n))).countP
            (fun q => decide (q = p))) = pts.countP (fun q => decide (q = p)) := by
          rw [List.countP_filter]
          apply List.countP_congr
          intro x _
          simp only [Bool.and_eq_true, decide_eq_true_eq]
          constructor
          · rintro ⟨h1, -⟩; exact h1
          · rintro rfl; exact ⟨rfl, hmem⟩
        rw [hcnt, hmem]
      · have hzero : (tab.filter (fun r => decide (r.1 = p))).length = 0 := by
          rw [List.length_eq_zero, List.filter_eq_nil_iff]
          intro a ha
          subst htab
          rcases mem_sjoin_nearest.mp ha with ⟨ha1, -⟩
          rcases List.mem_filter.mp ha1 with ⟨-, hstr⟩
          simp only [decide_eq_true_eq] at hstr ⊢
          intro heq
          exact hmem (heq ▸ hstr)
        rw [hzero, Nat.zero_add]
        have hiff : (p.straatnaam ∈ n :: t) ↔ (p.straatnaam ∈ t) := by
          simp [List.mem_cons, hmem]
        rw [if_congr hiff rfl rfl]

theorem tables_filter_street (d : AccidentPoint → RoadSegment → ℚ)
    (pts : List AccidentPoint) (segs : List RoadSegment) (n : String) :
    ∀ names : List String, names.Nodup →
      ((names.filterMap (streetTable d pts segs)).flatten).filter
          (fun r => decide (r.1.straatnaam = n))
        = if n ∈ names then (streetTable d pts segs n).getD [] else [] := by
  intro names
  induction names with
  | nil => intro _; simp
  | cons m t ih =>
    intro hnd
    rcases List.nodup_cons.mp hnd with ⟨hm, hndt⟩
    cases hst : streetTable d pts segs m with
    | none =>
      have hstep : ((m :: t).filterMap (streetTable d pts segs))
          = t.filterMap (streetTable d pts segs) := by
        rw [List.filterMap_cons, hst]
      rw [hstep, ih hndt]
      by_cases hmn : n = m
      · subst hmn
        rw [if_neg hm, if_pos (List.mem_cons_self _ _), hst]
        rfl
      · have hiff : (n ∈ m :: t) ↔ (n ∈ t) := by simp [List.mem_cons, hmn]
        rw [if_congr hiff rfl rfl]
    | some tab =>
      have hstep : ((m :: t).filterMap (streetTable d pts segs))
          = tab :: t.filterMap (streetTable d pts segs) := by
        rw [List.filterMap_cons, hst]
      rw [hstep, List.flatten_cons, List.filter_append, ih hndt]
      rcases streetTable_some hst with ⟨-, htab⟩
      by_cases hmn : n = m
      · subst hmn
        have hfull : tab.filter (fun r => decide (r.1.straatnaam = n)) = tab := by
          rw [List.filter_eq_self]
          intro a ha
          subst htab
          rcases mem_sjoin_nearest.mp ha with ⟨ha1, -⟩
          rcases List.mem_filter.mp ha1 with ⟨-, hstr⟩
          simpa using hstr
        rw [hfull, if_neg hm, List.append_nil, if_pos (List.mem_cons_self _ _), hst]
        rfl
      · have hnil : tab.filter (fun r => decide (r.1.straatnaam = n)) = [] := by
          rw [List.filter_eq_nil_iff]
          intro a ha
          subst htab
          rcases mem_sjoin_nearest.mp ha with ⟨ha1, -⟩
          rcases List.mem_filter.mp ha1 with ⟨-, hstr⟩
          simp only [decide_eq_true_eq] at hstr ⊢
          intro heq
          exact hmn ((hstr ▸ heq : m = n)).symm
        rw [hnil, List.nil_append]
        have hiff : (n ∈ m :: t) ↔ (n ∈ t) := by simp [List.mem_cons, hmn]
        rw [if_congr hiff rfl rfl]

theorem length_le_sum_of_one_le (f : AccidentPoint → Nat) :
    ∀ l : List AccidentPoint, (∀ x ∈ l, 1 ≤ f x) →
      l.length ≤ (l.map f).sum ∧
      ((l.map f).sum = l.length ↔ ∀ x ∈ l, f x = 1) := by
  intro l
  induction l with
  | nil => intro _; simp
  | cons a t ih =>
    intro h
    have ha : 1 ≤ f a := h a (List.mem_cons_self _ _)
    have ht := ih (fun x hx => h x (List.mem_cons_of_mem _ hx))
    simp only [List.map_cons, List.sum_cons, List.length_cons]
    constructor
    · omega
    · constructor
      · intro heq x hx
        have hsum : f a = 1 ∧ (t.map f).sum = t.length := by omega
        rcases List.mem_cons.mp hx with rfl | hx2
        · exact hsum.1
        · exact (ht.2.mp hsum.2) x hx2
      · intro hall
        have hfa : f a = 1 := hall a (List.mem_cons_self _ _)
        have hsum : (t.map f).sum = t.length :=
          ht.2.mpr (fun x hx => hall x (List.mem_cons_of_mem _ hx))
        omega

theorem matchResult_some {d : AccidentPoint → RoadSegment → ℚ}
    {pts : List AccidentPoint} {segs : List RoadSegment}
    {rows : List (AccidentPoint × RoadSegment)}
    (h : matchResult d pts segs = some rows) :
    rows = (perStreetTables d pts segs).flatten := by
  unfold matchResult at h
  by_cases hc : (perStreetTables d pts segs).isEmpty
  · rw [if_pos hc] at h; cases h
  · rw [if_neg hc] at h; exact (Option.some.inj h).symm

/-! ## Concrete inputs for counterexamples and witnesses -/

def P0 : AccidentPoint := ⟨"A", 0⟩

def Sg1 : RoadSegment := ⟨some "A", 1⟩

def Sg2 : RoadSegment := ⟨some "A", 2⟩

/-- A distance function realizing a unique nearest segment. -/
def dZero : AccidentPoint → RoadSegment → ℚ := fun _ _ => 0

/-- A distance function realizing an exact tie (the point equidistant
from every segment, geometrically realizable). -/
def dTie : AccidentPoint → RoadSegment → ℚ := fun _ _ => 1

/-- A filesystem where the 2023 accidents file exists but holds an empty
dataset while the 2024 file holds one accident. -/
def rcC3 : String → Option (List AccidentPoint) := fun path =>
  if path = accidents_path_2023 then some []
  else if path = accidents_path_2024 then some [P0]
  else none

/-- A filesystem where the 2023 accidents file is missing and the 2024
file holds one accident. -/
def rcC6 : String → Option (List AccidentPoint) := fun path =>
  if path = accidents_path_2024 then some [P0] else none

/-! ## Claim C1: matching is strictly name-scoped -/

/-- Claim C1: every row of the matcher's output pairs an accident point
with a segment whose `name` equals the point's `straatnaam` exactly and
case-sensitively: the join is performed only inside the street-name
partition, never against a nearer segment of a different name.  This is
the core shared by the 2023 script and the 2023/2024 script (the output
tables of both are `matchResult`'s rows). -/
theorem c1_match_name_scoped (d : AccidentPoint → RoadSegment → ℚ)
    (pts : List AccidentPoint) (segs : List RoadSegment)
    (rows : List (AccidentPoint × RoadSegment))
    (h : matchResult d pts segs = some rows) :
    ∀ r ∈ rows, r.2.name = some r.1.straatnaam := by
  intro r hr
  rw [matchResult_some h] at hr
  rcases List.mem_flatten.mp hr with ⟨tab, htab, hrtab⟩
  unfold perStreetTables at htab
  rcases List.mem_filterMap.mp htab with ⟨n, -, hst⟩
  rcases streetTable_some hst with ⟨-, rfl⟩
  rcases mem_sjoin_nearest.mp hrtab with ⟨h1, h2⟩
  rcases List.mem_filter.mp h1 with ⟨-, hstr⟩
  have h2m := (mem_nearestSegments.mp h2).1
  rcases List.mem_filter.mp h2m with ⟨-, hname⟩
  simp only [decide_eq_true_eq] at hstr hname
  rw [hname, hstr]

theorem c1_witness : Sg1.name = some P0.straatnaam :=
  c1_match_name_scoped dZero [P0] [Sg1] [(P0, Sg1)] (by decide) (P0, Sg1) (by decide)

/-! ## Claim C2: rows per point -/

/-- Counterexample to claim C2: a point with two same-named segments at
exactly equal nearest distance receives **two** output rows, not at most
one: `gpd.sjoin_nearest` returns every equidistant nearest neighbour, so
the claim's tie clause fails on the code. -/
theorem c2_counterexample :
    matchResult dTie [P0] [Sg1, Sg2] = some [(P0, Sg1), (P0, Sg2)] ∧
    ¬ ((([(P0, Sg1), (P0, Sg2)] : List (AccidentPoint × RoadSegment)).filter
        (fun r => decide (r.1 = P0))).length ≤ 1) := by
  exact ⟨by decide, by decide⟩

/-- Claim C2, amended: for every input point `p`, the matcher's output
contains exactly one row per same-named segment at minimal distance,
scaled by the point's multiplicity in the input: zero rows when no
segment carries `p`'s street name, exactly one row when the nearest
same-named segment is unique, and one row per tied segment when several
are equidistant-nearest. -/
theorem c2_row_multiplicity (d : AccidentPoint → RoadSegment → ℚ)
    (pts : List AccidentPoint) (segs : List RoadSegment)
    (rows : List (AccidentPoint × RoadSegment)) (p : AccidentPoint)
    (h : matchResult d pts segs = some rows) :
    (rows.filter (fun r => decide (r.1 = p))).length
      = pts.countP (fun q => decide (q = p))
          * (nearestSegments d p (segs.filter
              (fun s => decide (s.name = some p.straatnaam)))).length := by
  rw [matchResult_some h]
  unfold perStreetTables
  rw [tables_filter_point d pts segs p (uniqueStraatnamen pts) (nodup_dedupFirst _)]
  by_cases hmem : p.straatnaam ∈ uniqueStraatnamen pts
  · rw [if_pos hmem]
  · rw [if_neg hmem]
    have hcnt : pts.countP (fun q => decide (q = p)) = 0 := by
      rw [List.countP_eq_zero]
      intro q hq
      simp only [decide_eq_true_eq]
      rintro rfl
      exact hmem (mem_dedupFirst.mpr (List.mem_map.mpr ⟨q, hq, rfl⟩))
    rw [hcnt, Nat.zero_mul]

theorem c2_witness :
    (([(P0, Sg1), (P0, Sg2)] : List (AccidentPoint × RoadSegment)).filter
        (fun r => decide (r.1 = P0))).length
      = [P0].countP (fun q => decide (q = P0))
          * (nearestSegments dTie P0 ([Sg1, Sg2].filter
              (fun s => decide (s.name = some P0.straatnaam)))).length :=
  c2_row_multiplicity dTie [P0] [Sg1, Sg2] [(P0, Sg1), (P0, Sg2)] P0 (by decide)

/-! ## Claim C3: the zero-match fatal error -/

/-- Counterexample to claim C3: in the 2023/2024 pipeline (two inputs, so the
2023 dataset is not the sole input) an *empty* 2023 point dataset does
not yield an empty output table: the `RuntimeError` fires (an empty
dataset produces zero per-street tables) and aborts the whole run before
2024 is processed. -/
theorem c3_counterexample :
    main_23_24 rcC3 dZero [Sg1]
      = .error "No matches were found between accidents and roads for 2023." := by
  rfl

/-- Claim C3, amended: the matching core reports the fatal zero-match
condition exactly when no street of the point dataset has a same-named
segment — in particular whenever the point dataset is empty, even when
that dataset is not the sole input — and in that situation both scripts
halt with their diagnostic `RuntimeError` message instead of producing
an output table; conversely, whenever a run does produce an output
table, that table contains at least one matched row, so an empty output
table is never written (fourth conjunct). -/
theorem c3_error_semantics (d : AccidentPoint → RoadSegment → ℚ)
    (pts : List AccidentPoint) (segs : List RoadSegment) (year : Nat) :
    (matchResult d pts segs = none ↔
      ∀ n ∈ uniqueStraatnamen pts,
        segs.filter (fun s => decide (s.name = some n)) = []) ∧
    (pts = [] → matchResult d pts segs = none) ∧
    (matchResult d pts segs = none →
      match_accidents_to_roads d pts segs year
          = .error ("No matches were found between accidents and roads for "
              ++ toString year ++ ".") ∧
      run_matching_2023 d pts segs
          = .error "No matches were found between accidents and roads.") ∧
    (∀ rows : List (AccidentPoint × RoadSegment),
      matchResult d pts segs = some rows → rows ≠ []) := by
  have hiff : matchResult d pts segs = none ↔
      ∀ n ∈ uniqueStraatnamen pts,
        segs.filter (fun s => decide (s.name = some n)) = [] := by
    unfold matchResult
    by_cases hc : (perStreetTables d pts segs).isEmpty
    · rw [if_pos hc]
      have hnil := List.isEmpty_iff.mp hc
      unfold perStreetTables at hnil
      have hall := List.filterMap_eq_nil_iff.mp hnil
      constructor
      · intro _ n hn
        exact streetTable_none_iff.mp (hall n hn)
      · intro _; rfl
    · rw [if_neg hc]
      constructor
      · intro habs; cases habs
      · intro hall
        exfalso
        apply hc
        rw [List.isEmpty_iff]
        unfold perStreetTables
        rw [List.filterMap_eq_nil_iff]
        intro n hn
        exact streetTable_none_iff.mpr (hall n hn)
  refine ⟨hiff, ?_, ?_, ?_⟩
  · rintro rfl
    apply hiff.mpr
    intro n hn
    simp [uniqueStraatnamen, dedupFirst] at hn
  · intro hnone
    constructor
    · unfold match_accidents_to_roads
      rw [hnone]
    · unfold run_matching_2023
      rw [hnone]
  · intro rows hrows
    have hflat := matchResult_some hrows
    have hne : ¬ (perStreetTables d pts segs).isEmpty := by
      intro hc
      unfold matchResult at hrows
      rw [if_pos hc] at hrows
      cases hrows
    have htne : perStreetTables d pts segs ≠ [] := by
      intro h0; exact hne (by simp [h0])
    obtain ⟨tab, htab⟩ := List.exists_mem_of_ne_nil _ htne
    have htab2 := htab
    unfold perStreetTables at htab2
    rcases List.mem_filterMap.mp htab2 with ⟨n, hn, hst⟩
    rcases streetTable_some hst with ⟨hrws, htabeq⟩
    have haps : pts.filter (fun p => decide (p.straatnaam = n)) ≠ [] := by
      have hn2 := mem_dedupFirst.mp hn
      rcases List.mem_map.mp hn2 with ⟨p, hp, hpn⟩
      exact List.ne_nil_of_mem (List.mem_filter.mpr ⟨hp, by simp [hpn]⟩)
    have htabne : tab ≠ [] := by
      subst htabeq
      intro h0
      have hlen := sjoin_nearest_length d
        (pts.filter (fun p => decide (p.straatnaam = n)))
        (segs.filter (fun s => decide (s.name = some n)))
      rw [h0] at hlen
      have hbound := (length_le_sum_of_one_le
        (fun p => (nearestSegments d p (segs.filter
          (fun s => decide (s.name = some n)))).length)
        (pts.filter (fun p => decide (p.straatnaam = n)))
        (fun x _ => one_le_length_nearestSegments d x hrws)).1
      have hlpos : 0 < (pts.filter (fun p => decide (p.straatnaam = n))).length :=
        List.length_pos.mpr haps
      simp only [List.length_nil] at hlen
      omega
    obtain ⟨x, hx⟩ := List.exists_mem_of_ne_nil tab htabne
    intro h0
    have hxrows : x ∈ rows := by
      rw [hflat]
      exact List.mem_flatten.mpr ⟨tab, htab, hx⟩
    rw [h0] at hxrows
    cases hxrows

theorem c3_witness :
    matchResult dZero [] [Sg1] = none ∧
    ([(P0, Sg1)] : List (AccidentPoint × RoadSegment)) ≠ [] :=
  ⟨(c3_error_semantics dZero [] [Sg1] 2023).2.1 rfl,
   (c3_error_semantics dZero [P0] [Sg1] 2023).2.2.2 [(P0, Sg1)] (by decide)⟩

/-! ## Claim C4: per-street accounting -/

/-- Counterexample to claim C4: with one point on street `"A"` and two
same-named segments at tied nearest distance, street `"A"`'s partition
has 1 input point but 2 output rows, so the claimed inequality
"input point count ≥ output row count for every street subset" fails on
the code. -/
theorem c4_counterexample :
    matchResult dTie [P0] [Sg1, Sg2] = some [(P0, Sg1), (P0, Sg2)] ∧
    ¬ ((([(P0, Sg1), (P0, Sg2)] : List (AccidentPoint × RoadSegment)).filter
          (fun r => decide (r.1.straatnaam = "A"))).length
        ≤ ([P0].filter (fun p => decide (p.straatnaam = "A"))).length) := by
  exact ⟨by decide, by decide⟩

/-- Claim C4, amended: for every street name: if the same-named segment
subset is empty the matcher produces no rows for that street (and, as
long as the run succeeds at all, no error for it); if the segment subset
is non-empty, the street's output row count is **at least** its input
point count, with equality exactly when every point of the street has a
unique nearest same-named segment (ties produce the extra rows refuting
the claim's original direction of the inequality). -/
theorem c4_street_accounting (d : AccidentPoint → RoadSegment → ℚ)
    (pts : List AccidentPoint) (segs : List RoadSegment)
    (rows : List (AccidentPoint × RoadSegment)) (n : String)
    (h : matchResult d pts segs = some rows) :
    (segs.filter (fun s => decide (s.name = some n)) = [] →
      rows.filter (fun r => decide (r.1.straatnaam = n)) = []) ∧
    (segs.filter (fun s => decide (s.name = some n)) ≠ [] →
      (pts.filter (fun p => decide (p.straatnaam = n))).length
          ≤ (rows.filter (fun r => decide (r.1.straatnaam = n))).length ∧
      ((rows.filter (fun r => decide (r.1.straatnaam = n))).length
          = (pts.filter (fun p => decide (p.straatnaam = n))).length ↔
        ∀ p ∈ pts.filter (fun p => decide (p.straatnaam = n)),
          (nearestSegments d p (segs.filter
            (fun s => decide (s.name = some n)))).length = 1)) := by
  rw [matchResult_some h]
  unfold perStreetTables
  rw [tables_filter_street d pts segs n (uniqueStraatnamen pts) (nodup_dedupFirst _)]
  by_cases hmem : n ∈ uniqueStraatnamen pts
  · rw [if_pos hmem]
    cases hst : streetTable d pts segs n with
    | none =>
      have hrws := streetTable_none_iff.mp hst
      exact ⟨fun _ => rfl, fun hne => absurd hrws hne⟩
    | some tab =>
      rcases streetTable_some hst with ⟨hne, htab⟩
      constructor
      · intro habs; exact absurd habs hne
      · intro _
        simp only [Option.getD_some]
        subst htab
        rw [sjoin_nearest_length]
        have hbound := length_le_sum_of_one_le
          (fun p => (nearestSegments d p (segs.filter
            (fun s => decide (s.name = some n)))).length)
          (pts.filter (fun p => decide (p.straatnaam = n)))
          (fun x _ => one_le_length_nearestSegments d x hne)
        exact ⟨hbound.1, hbound.2⟩
  · rw [if_neg hmem]
    have haps : pts.filter (fun p => decide (p.straatnaam = n)) = [] := by
      rw [List.filter_eq_nil_iff]
      intro a ha
      simp only [decide_eq_true_eq]
      intro heq
      exact hmem (mem_dedupFirst.mpr (List.mem_map.mpr ⟨a, ha, heq⟩))
    refine ⟨fun _ => rfl, fun _ => ?_⟩
    rw [haps]
    simp

theorem c4_witness :
    ([P0].filter (fun p => decide (p.straatnaam = "A"))).length
      ≤ (([(P0, Sg1)] : List (AccidentPoint × RoadSegment)).filter
          (fun r => decide (r.1.straatnaam = "A"))).length :=
  ((c4_street_accounting dZero [P0] [Sg1] [(P0, Sg1)] "A" (by decide)).2
    (by decide)).1

/-! ## Claim C6: missing required input files -/

/-- Counterexample to claim C6: in the 2023/2024 pipeline a missing 2023
accidents file is not fatal: the script prints a warning, `continue`s,
processes 2024 and finishes successfully — the pipeline *does* continue
past a missing required input file. -/
theorem c6_counterexample :
    main_23_24 rcC6 dZero [Sg1] = .ok [(2024, [(P0, Sg1)])] := by
  rfl

/-- Claim C6, amended: the splitter and the 2023 matcher do fail fatally
on a missing required input file with an error message built from the
expected path; the 2023/2024 matcher, however, treats a missing per-year
accidents file as a warning and skips that year, continuing with the
remaining years (here: 2023 missing, 2024 processed normally). -/
theorem c6_missing_input_behaviour :
    (∀ fileExists : String → Bool, fileExists trafficsigns_path = false →
      load_traffic_signs fileExists
        = .error ("File not found: " ++ trafficsigns_path ++
            "\nPlease ensure trafficsigns_wgs84.geojson is in the data_raw/ directory ☝️🤓")) ∧
    (∀ read_csv : String → Option (List AccidentPoint),
      read_csv bron_csv_file_2023 = none →
      load_bron_2023 read_csv
        = .error ("BRON accidents file not found: " ++ bron_csv_file_2023)) ∧
    (∀ (read_csv : String → Option (List AccidentPoint))
        (d : AccidentPoint → RoadSegment → ℚ) (segs : List RoadSegment)
        (df : List AccidentPoint) (rows : List (AccidentPoint × RoadSegment)),
      read_csv accidents_path_2023 = none →
      read_csv accidents_path_2024 = some df →
      match_accidents_to_roads d df segs 2024 = .ok rows →
      main_23_24 read_csv d segs = .ok [(2024, rows)]) := by
  refine ⟨?_, ?_, ?_⟩
  · intro fe h
    unfold load_traffic_signs
    rw [h]
    rfl
  · intro rc h
    unfold load_bron_2023
    rw [h]
  · intro rc d segs df rows h1 h2 h3
    unfold main_23_24
    simp [processYears, accidents_files_23_24, h1, h2, h3]

theorem c6_witness :
    load_traffic_signs (fun _ => false)
      = .error ("File not found: " ++ trafficsigns_path ++
          "\nPlease ensure trafficsigns_wgs84.geojson is in the data_raw/ directory ☝️🤓") :=
  c6_missing_input_behaviour.1 (fun _ => false) rfl

end TrafficOntology
